import Mathlib

/-!
Verification of the episode/season synchronization engine of the
lowbass TV tracker against its natural-language specification.

The TypeScript source (`src/App.tsx`, `backend/src/services/showService.ts`)
is shallowly embedded below: timestamps (`Date` values, ISO strings) are
modelled as `Nat` instants, a missing or unparseable air date is `none`
(in JS, `new Date(bad) <= now` is false because the comparison with `NaN`
fails), and JavaScript arrays are Lean lists.  Effectful functions are
modelled by passing their inputs (fetched data, the current time) as
explicit arguments.
-/

/-- Episode record, after `fetchEpisodeList`'s transformation of the raw
TVmaze payload.  `season` is `none` when the source supplied no valid
season number, `airDate` is `none` when the air date is missing or
unparseable, and `watchedDate` is the instant at which the episode was
marked watched. -/
structure Episode where
  id : Nat
  season : Option Nat
  episode : Nat
  title : String
  airDate : Option Nat
  airTime : Option String
  runtime : Option Nat
  summary : String
  watched : Bool
  watchedDate : Option Nat
deriving DecidableEq, Repr

/-- Derived per-season view produced by `organizeEpisodesIntoSeasons`.
`number` is `none` for the bucket of episodes with a missing season. -/
structure Season where
  number : Option Nat
  episodes : List Episode
  totalEpisodes : Nat
  watchedEpisodes : Nat
deriving DecidableEq, Repr

/-- Denormalized snapshot of the resolved next episode. -/
structure NextEpisode where
  season : Option Nat
  episode : Nat
  title : String
  airDate : Option Nat
  airTime : Option String
  runtime : Option Nat
  hasNext : Bool
deriving DecidableEq, Repr

/-- Tracked show.  Descriptive metadata that the engine merely passes
through is represented by `title`/`tvmazeId`; the derived fields are
exactly the ones the recomputer writes. -/
structure Show where
  id : String
  title : String
  tvmazeId : Nat
  episodes : List Episode
  seasons : List Season
  totalEpisodes : Nat
  watchedEpisodesCount : Nat
  nextEpisode : Option NextEpisode
  watched : Bool
  watchedDate : Option Nat
  lastUpdated : Nat
deriving DecidableEq, Repr

/-- Embedding of `new Date(ep.airDate) <= now`: true exactly when the
episode has a parseable air date that is on or before `now` (an invalid
date yields `NaN`, and `NaN <= now` is false in JS). -/
def airedB (now : Nat) (e : Episode) : Bool :=
  match e.airDate with
  | some t => decide (t ≤ now)
  | none => false

/-- Embedding of the episode-level merge of `updateShowWithEpisodes`
(App.tsx lines 409-416): for each freshly fetched episode, look up a
prior episode by id; carry over `watched` and `watchedDate`
(`existingEp?.watched || false`, `existingEp?.watchedDate || undefined`)
and take every other field from the fresh value. -/
def mergeEpisodes (prior fresh : List Episode) : List Episode :=
  fresh.map (fun freshEp =>
    match prior.find? (fun ep => ep.id == freshEp.id) with
    | some existingEp =>
        { freshEp with watched := existingEp.watched
                       watchedDate := existingEp.watchedDate }
    | none => { freshEp with watched := false, watchedDate := none })

/-- Abbreviation for the per-fresh-episode merge step against a fixed
prior list. -/
def mergeStep (prior : List Episode) (freshEp : Episode) : Episode :=
  match prior.find? (fun ep => ep.id == freshEp.id) with
  | some existingEp =>
      { freshEp with watched := existingEp.watched
                     watchedDate := existingEp.watchedDate }
  | none => { freshEp with watched := false, watchedDate := none }

/-- Sample prior episode (watched) for concrete instantiations. -/
def epA : Episode :=
  ⟨10, some 1, 1, "old title", some 5, none, none, "", true, some 42⟩

/-- Fresh refetch of `epA`: same id, every other field changed. -/
def epAFresh : Episode :=
  ⟨10, some 1, 1, "corrected title", some 6, some "21:00", some 60, "s",
   false, none⟩

/-- Fresh episode whose id does not occur in the prior list. -/
def epBFresh : Episode :=
  ⟨11, some 1, 2, "new episode", some 7, none, none, "", false, none⟩

/-- Snapshot taken of the resolved next episode (App.tsx lines 424-433):
a denormalized copy of the episode's descriptive fields with
`hasNext := true`. -/
def toNextEpisode (e : Episode) : NextEpisode :=
  ⟨e.season, e.episode, e.title, e.airDate, e.airTime, e.runtime, true⟩

/-- Embedding of the next-episode search of `updateShowWithEpisodes`
(App.tsx line 422, and the identical lines in the toggle/mark
operations): `episodes.find(ep => !ep.watched && new Date(ep.airDate) <=
now)` — the first episode in list order that is unwatched and aired. -/
def findNextUnwatched (now : Nat) (episodes : List Episode) :
    Option Episode :=
  episodes.find? (fun ep => !ep.watched && airedB now ep)

/-- Resolved `nextEpisode` field: the snapshot of the found episode, or
`none`. -/
def resolveNextEpisode (now : Nat) (episodes : List Episode) :
    Option NextEpisode :=
  (findNextUnwatched now episodes).map toNextEpisode

/-- Unwatched aired episode listed first despite the later air date. -/
def epLater : Episode :=
  ⟨1, some 1, 1, "later", some 200, none, none, "", false, none⟩

/-- Unwatched aired episode listed second despite the earlier air date. -/
def epEarlier : Episode :=
  ⟨2, some 1, 2, "earlier", some 100, none, none, "", false, none⟩

/-- Watched episode that aired at instant 101. -/
def specEp1 : Episode :=
  ⟨1, some 1, 1, "", some 101, none, none, "", true, some 150⟩

/-- Unwatched episode that aired at instant 201. -/
def specEp2 : Episode :=
  ⟨2, some 1, 2, "", some 201, none, none, "", false, none⟩

/-- Unwatched episode airing at instant 301 (in the future). -/
def specEp3 : Episode :=
  ⟨3, some 1, 3, "", some 301, none, none, "", false, none⟩

/-- Season-2 episode listed first, for the aggregation witness. -/
def epS2 : Episode :=
  ⟨21, some 2, 1, "", some 10, none, none, "", false, none⟩

/-- Season-1 episode number 2, listed before its season sibling. -/
def epS1a : Episode :=
  ⟨22, some 1, 2, "", some 11, none, none, "", true, some 12⟩

/-- Season-1 episode number 1, listed last among the season-1 input. -/
def epS1b : Episode :=
  ⟨23, some 1, 1, "", some 9, none, none, "", false, none⟩

/-- Episode with a missing season number. -/
def epNoSeason : Episode :=
  ⟨24, none, 1, "", some 8, none, none, "", true, some 13⟩

/-- Insertion of `x` into a list: `x` is placed before the first element
`y` with `lt x y`.  This is the placement discipline of a JS
`Array.prototype.sort` comparator (`x` precedes `y` iff the comparator is
negative). -/
def insertSorted {α : Type} (lt : α → α → Bool) (x : α) :
    List α → List α
  | [] => [x]
  | y :: ys => if lt x y then x :: y :: ys else y :: insertSorted lt x ys

/-- Comparator-based sort modelling `.sort((a, b) => cmp)`. -/
def sortByLt {α : Type} (lt : α → α → Bool) : List α → List α
  | [] => []
  | x :: xs => insertSorted lt x (sortByLt lt xs)

/-- Season-key comparator `([a], [b]) => a - b`.  When either key is
missing the JS subtraction yields `NaN`, which the sort treats as "not
less"; the model returns `false` in that case. -/
def seasonKeyLt : Option Nat → Option Nat → Bool
  | some a, some b => decide (a < b)
  | _, _ => false

/-- Episode comparator `(a, b) => a.episode - b.episode`. -/
def episodeNumberLt (a b : Episode) : Bool :=
  decide (a.episode < b.episode)

/-- Season built for one key of the grouping `Map`: its episodes are the
input episodes with that season key, in input order (the order the
`forEach` pushed them), then sorted by episode number; the counts are
taken over the same bucket. -/
def mkSeason (episodes : List Episode) (k : Option Nat) : Season :=
  let seasonEpisodes := episodes.filter (fun e => e.season == k)
  { number := k
    episodes := sortByLt episodeNumberLt seasonEpisodes
    totalEpisodes := seasonEpisodes.length
    watchedEpisodes := (seasonEpisodes.filter (fun e => e.watched)).length }

/-- Embedding of `organizeEpisodesIntoSeasons` (App.tsx lines 376-400):
group the episodes by season key (a `Map` keyed by `episode.season`,
including the bucket for a missing season), sort the distinct keys by
season number, and build each season's bucket. -/
def organizeEpisodesIntoSeasons (episodes : List Episode) : List Season :=
  (sortByLt seasonKeyLt ((episodes.map (fun e => e.season)).dedup)).map
    (mkSeason episodes)

/-- Embedding of `updateShowWithEpisodes` (App.tsx lines 403-448) with
the fetched fresh episode list and the current instant passed as
arguments: merge watch state into the fresh list, rebuild the season
view, resolve the next episode, and recompute every derived field
(including `totalEpisodes`). -/
def updateShowWithEpisodes (s : Show) (freshEpisodes : List Episode)
    (now : Nat) : Show :=
  let episodes := mergeEpisodes s.episodes freshEpisodes
  let watchedCount := (episodes.filter (fun ep => ep.watched)).length
  { s with
      episodes := episodes
      seasons := organizeEpisodesIntoSeasons episodes
      totalEpisodes := episodes.length
      watchedEpisodesCount := watchedCount
      nextEpisode := resolveNextEpisode now episodes
      watched := watchedCount == episodes.length &&
        decide (0 < episodes.length)
      lastUpdated := now }

/-- Shared recomputation block of `toggleEpisodeWatched`,
`markSeasonWatched` and `markSeriesWatched` (repeated verbatim at
App.tsx lines 746-774, 823-851 and 531-558): rebuild seasons, counts,
next episode and the overall `watched` flag from the updated episode
list.  Note that this block does NOT write `totalEpisodes`: the local
`totalEpisodes` used for the `watched` flag is the updated episode
count, while the stored field keeps its previous value. -/
def recomputeDerived (currentShow : Show) (updatedEpisodes : List Episode)
    (now : Nat) : Show :=
  let watchedCount := (updatedEpisodes.filter (fun ep => ep.watched)).length
  let totalEpisodes := updatedEpisodes.length
  { currentShow with
      episodes := updatedEpisodes
      seasons := organizeEpisodesIntoSeasons updatedEpisodes
      watchedEpisodesCount := watchedCount
      watched := watchedCount == totalEpisodes && decide (0 < totalEpisodes)
      nextEpisode := resolveNextEpisode now updatedEpisodes
      lastUpdated := now }

/-- In-place replacement used by every mutation's `setWatchlist` call:
`prevWatchlist.map(show => show.id === showId ? updatedShow : show)`. -/
def replaceById (watchlist : List Show) (showId : String) (upd : Show) :
    List Show :=
  watchlist.map (fun s => if s.id == showId then upd else s)

/-- Per-episode update of `toggleEpisodeWatched`: flip the targeted
episode's `watched`, stamping `watchedDate` when newly watched and
clearing it otherwise; other episodes are untouched. -/
def toggleEp (episodeId : Nat) (now : Nat) (episode : Episode) : Episode :=
  if episode.id == episodeId then
    { episode with
        watched := !episode.watched
        watchedDate := if !episode.watched then some now else none }
  else episode

/-- Embedding of `toggleEpisodeWatched` (App.tsx lines 724-792): find the
show; flip the targeted episode; recompute; replace the show in the
watchlist by id.  When the show is not found the watchlist is returned
unchanged. -/
def toggleEpisodeWatched (watchlist : List Show) (showId : String)
    (episodeId : Nat) (now : Nat) : List Show :=
  match watchlist.find? (fun s => s.id == showId) with
  | none => watchlist
  | some currentShow =>
      let updatedEpisodes := currentShow.episodes.map (toggleEp episodeId now)
      let updatedShow := recomputeDerived currentShow updatedEpisodes now
      replaceById watchlist showId updatedShow

/-- Per-episode update of `markSeasonWatched`/`markSeriesWatched`: mark
watched only if the episode has aired (`watched ? hasAired : false`);
unmarking clears unconditionally. -/
def bulkMarkEpisode (watched : Bool) (now : Nat) (episode : Episode) :
    Episode :=
  let hasAired := airedB now episode
  let shouldMarkWatched := if watched then hasAired else false
  { episode with
      watched := shouldMarkWatched
      watchedDate := if shouldMarkWatched then some now else none }

/-- Per-episode update of `markSeasonWatched`: the aired-only bulk mark
applied only to episodes of the targeted season. -/
def seasonMarkEp (seasonNumber : Option Nat) (watched : Bool) (now : Nat)
    (episode : Episode) : Episode :=
  if episode.season == seasonNumber then bulkMarkEpisode watched now episode
  else episode

/-- Embedding of `markSeasonWatched` (App.tsx lines 795-868): apply the
aired-only bulk mark to every episode of the given season, leave other
episodes untouched, recompute, and replace the show by id. -/
def markSeasonWatched (watchlist : List Show) (showId : String)
    (seasonNumber : Option Nat) (watched : Bool) (now : Nat) : List Show :=
  match watchlist.find? (fun s => s.id == showId) with
  | none => watchlist
  | some currentShow =>
      let updatedEpisodes :=
        currentShow.episodes.map (seasonMarkEp seasonNumber watched now)
      let updatedShow := recomputeDerived currentShow updatedEpisodes now
      replaceById watchlist showId updatedShow

/-- Embedding of `markSeriesWatched` (App.tsx lines 506-577): apply the
aired-only bulk mark to every episode of the show, recompute (also
stamping the show-level `watchedDate`), and replace the show by id. -/
def markSeriesWatched (watchlist : List Show) (showId : String)
    (watched : Bool) (now : Nat) : List Show :=
  match watchlist.find? (fun s => s.id == showId) with
  | none => watchlist
  | some currentShow =>
      let updatedEpisodes :=
        currentShow.episodes.map (bulkMarkEpisode watched now)
      let updatedShow :=
        { recomputeDerived currentShow updatedEpisodes now with
            watchedDate := if watched then some now else none }
      replaceById watchlist showId updatedShow

/-- Fresh watchlist entry built by `addToWatchlist` (App.tsx lines
460-471): the item with watch state reset and empty episode data. -/
def newWatchlistItem (item : Show) (now : Nat) : Show :=
  { item with
      watched := false
      seasons := []
      episodes := []
      totalEpisodes := 0
      watchedEpisodesCount := 0
      lastUpdated := now }

/-- Embedding of `addToWatchlist` (App.tsx lines 451-474): if a tracked
show already has the item's id, return the watchlist unchanged,
otherwise append the reset item. -/
def addToWatchlist (watchlist : List Show) (item : Show) (now : Nat) :
    List Show :=
  if (watchlist.find? (fun w => w.id == item.id)).isSome then watchlist
  else watchlist ++ [newWatchlistItem item now]

/-- Embedding of `removeFromWatchlist` (App.tsx line 596). -/
def removeFromWatchlist (watchlist : List Show) (itemId : String) :
    List Show :=
  watchlist.filter (fun item => !(item.id == itemId))

/-- One show's refresh inside the daily update: run the per-show fetch
and recompute the show from its result.  The fetch is a parameter so the
orchestrator's try/catch structure can be stated for an arbitrary
fallible step; in the composed program the actual fetch never throws
(the adapters catch every failure and return an empty list, see
`fetchEpisodeList`), so its error branch is unreachable there. -/
def refreshShow (fetchEpisodes : Show → Except String (List Episode))
    (now : Nat) (s : Show) : Except String Show :=
  (fetchEpisodes s).map (fun fresh => updateShowWithEpisodes s fresh now)

/-- Embedding of the batch-refresh orchestrator: `updateShowsDaily`
(App.tsx lines 109-172) for the per-show try/catch that keeps the
original show on failure, and `updateAllShowsEpisodes`
(showService.ts lines 30-57) for the `(updatedCount, errorCount)`
result.  Batching (3-5 shows per `Promise.all`, a fixed delay between
batches) only schedules these independent per-show steps, so the model
processes the stale shows in list order.  Returns the new show states
together with the updated and error counts. -/
def updateShowsDaily (fetchEpisodes : Show → Except String (List Episode))
    (now : Nat) : List Show → List Show × Nat × Nat
  | [] => ([], 0, 0)
  | s :: rest =>
      let tail := updateShowsDaily fetchEpisodes now rest
      match refreshShow fetchEpisodes now s with
      | Except.ok s' => (s' :: tail.1, tail.2.1 + 1, tail.2.2)
      | Except.error _ => (s :: tail.1, tail.2.1, tail.2.2 + 1)

/-- Show-level watched-flag invariant of the data model: `watched` holds
exactly when the show has at least one known episode and every known
episode is watched. -/
def WatchedInvariant (s : Show) : Prop :=
  s.watched = true ↔
    (0 < s.totalEpisodes ∧ s.watchedEpisodesCount = s.totalEpisodes)

/-- Tracked show holding the single (watched) episode `epA`, with
consistent derived counts. -/
def show1 : Show :=
  { id := "tvmaze-1", title := "A", tvmazeId := 1, episodes := [epA],
    seasons := [], totalEpisodes := 1, watchedEpisodesCount := 1,
    nextEpisode := none, watched := true, watchedDate := none,
    lastUpdated := 0 }

/-- Raw TVmaze episode payload consumed by the episode source adapters. -/
structure TvmazeEpisode where
  id : Nat
  season : Option Nat
  number : Nat
  name : String
  airdate : Option Nat
  airtime : Option String
  runtime : Option Nat
  summary : Option String
deriving DecidableEq, Repr

/-- Field transformation applied to each raw episode (App.tsx lines
357-368; HTML stripping of the summary is modelled as the identity). -/
def transformTvmazeEpisode (ep : TvmazeEpisode) : Episode :=
  { id := ep.id
    season := ep.season
    episode := ep.number
    title := ep.name
    airDate := ep.airdate
    airTime := ep.airtime
    runtime := ep.runtime
    summary := match ep.summary with | some s => s | none => ""
    watched := false
    watchedDate := none }

/-- HTTP interaction of the backend adapter, as seen by its caller:
`none` models a network failure (the `fetch` promise rejected), and
`some (status, body)` a response with the given status and JSON body. -/
def tvmazeRespFailed : Option (Nat × List TvmazeEpisode) → Bool
  | none => true
  | some (status, _) => !(decide (200 ≤ status) && decide (status < 300))

/-- Embedding of the backend `fetchEpisodesFromTvmaze` (showService.ts
lines 199-223): a non-2xx status throws, and the surrounding catch
converts every failure — network or HTTP — into an empty list. -/
def fetchEpisodesFromTvmaze (response : Option (Nat × List TvmazeEpisode)) :
    List Episode :=
  match response with
  | none => []
  | some (status, body) =>
      if decide (200 ≤ status) && decide (status < 300) then
        body.map transformTvmazeEpisode
      else []

/-- Embedding of the frontend `fetchEpisodeList` error path (App.tsx
lines 348-373): `none` models any failed fetch/parse, which the catch
converts into an empty list; no status check is performed. -/
def fetchEpisodeList (response : Option (List TvmazeEpisode)) :
    List Episode :=
  match response with
  | none => []
  | some eps => eps.map transformTvmazeEpisode

/-- Aired season-1 episode (air instant 50), initially unwatched. -/
def epAired : Episode :=
  ⟨31, some 1, 1, "", some 50, none, none, "", false, none⟩

/-- Unaired season-1 episode (air instant 500), initially unwatched. -/
def epUnaired : Episode :=
  ⟨32, some 1, 2, "", some 500, none, none, "", false, none⟩

/-- Tracked show with one aired and one unaired episode in season 1. -/
def show2 : Show :=
  { id := "tvmaze-2", title := "B", tvmazeId := 2,
    episodes := [epAired, epUnaired], seasons := [], totalEpisodes := 2,
    watchedEpisodesCount := 0, nextEpisode := none, watched := false,
    watchedDate := none, lastUpdated := 0 }

/-- Stale show number `n` of the batch-isolation scenario, holding one
previously watched episode. -/
def batchShow (n : Nat) : Show :=
  { id := "show-" ++ toString n, title := "", tvmazeId := n,
    episodes := [epA], seasons := [], totalEpisodes := 1,
    watchedEpisodesCount := 1, nextEpisode := none, watched := true,
    watchedDate := none, lastUpdated := 0 }

/-- The five stale shows of the batch-isolation scenario. -/
def batchWl : List Show :=
  [batchShow 1, batchShow 2, batchShow 3, batchShow 4, batchShow 5]

/-- Raw episode payload used by the adapter theorems. -/
def rawEp : TvmazeEpisode :=
  ⟨40, some 1, 1, "raw", some 60, none, some 30, none⟩

/-- The program's actual per-show fetch as the orchestrator awaits it:
`fetchEpisodeList` catches every network/HTTP failure and returns the
empty list, so the awaited promise NEVER rejects — the fetch is
`Except.ok` for every HTTP outcome `resp s` (`none` = failure).  The
`Except.error` branch of `updateShowsDaily` is therefore unreachable in
the composed program. -/
def actualFetch (resp : Show → Option (List TvmazeEpisode)) (s : Show) :
    Except String (List Episode) :=
  Except.ok (fetchEpisodeList (resp s))

/-- The batch-refresh orchestrator composed with the actual adapter:
what the program executes on a daily update. -/
def updateShowsDailyActual (resp : Show → Option (List TvmazeEpisode))
    (now : Nat) (wl : List Show) : List Show × Nat × Nat :=
  updateShowsDaily (actualFetch resp) now wl

/-- HTTP outcomes of the batch-isolation scenario: show #3's fetch fails
and every other show's fetch returns one raw episode. -/
def batchResp (s : Show) : Option (List TvmazeEpisode) :=
  if s.id == "show-3" then none else some [rawEp]

/-- Watchlist states reachable through the public operations, starting
from the empty list.  The `bgUpdate` step covers the asynchronous
replace-by-id writes (the background episode fetch of `addToWatchlist`
and the per-batch `setWatchlist` of the daily update), which always
store a show under its own id. -/
inductive Reachable : List Show → Prop where
  | nil : Reachable []
  | add (wl : List Show) (item : Show) (now : Nat) :
      Reachable wl → Reachable (addToWatchlist wl item now)
  | remove (wl : List Show) (itemId : String) :
      Reachable wl → Reachable (removeFromWatchlist wl itemId)
  | toggle (wl : List Show) (showId : String) (episodeId now : Nat) :
      Reachable wl → Reachable (toggleEpisodeWatched wl showId episodeId now)
  | season (wl : List Show) (showId : String) (sn : Option Nat)
      (w : Bool) (now : Nat) :
      Reachable wl → Reachable (markSeasonWatched wl showId sn w now)
  | series (wl : List Show) (showId : String) (w : Bool) (now : Nat) :
      Reachable wl → Reachable (markSeriesWatched wl showId w now)
  | daily (wl : List Show)
      (fetchEpisodes : Show → Except String (List Episode)) (now : Nat) :
      Reachable wl → Reachable (updateShowsDaily fetchEpisodes now wl).1
  | bgUpdate (wl : List Show) (sid : String) (s' : Show) :
      s'.id = sid → Reachable wl → Reachable (replaceById wl sid s')

theorem mergeEpisodes_eq_map (prior fresh : List Episode) :
    mergeEpisodes prior fresh = fresh.map (mergeStep prior) := rfl

theorem mergeStep_id (prior : List Episode) (e : Episode) :
    (mergeStep prior e).id = e.id := by
  unfold mergeStep
  cases prior.find? (fun ep => ep.id == e.id) <;> rfl

theorem find?_map_id_pred (g : Episode → Episode)
    (hg : ∀ e, (g e).id = e.id) (l : List Episode) (i : Nat) :
    (l.map g).find? (fun e => e.id == i) =
      (l.find? (fun e => e.id == i)).map g := by
  rw [List.find?_map]
  have hpred : ((fun e : Episode => e.id == i) ∘ g) =
      (fun e : Episode => e.id == i) := by
    funext e
    simp [Function.comp, hg]
  rw [hpred]

theorem mergeStep_of_find?_some {l : List Episode} {f ex : Episode}
    (h : l.find? (fun ep => ep.id == f.id) = some ex) :
    mergeStep l f = { f with watched := ex.watched
                             watchedDate := ex.watchedDate } := by
  unfold mergeStep
  rw [h]

theorem mergeStep_of_find?_none {l : List Episode} {f : Episode}
    (h : l.find? (fun ep => ep.id == f.id) = none) :
    mergeStep l f = { f with watched := false, watchedDate := none } := by
  unfold mergeStep
  rw [h]

/-- C3.  Merge idempotence: merging the fresh list into the result of a
previous merge of the same fresh list changes nothing — the episode-level
merge of `updateShowWithEpisodes` is idempotent in the fresh list. -/
theorem mergeEpisodes_idempotent (P F : List Episode) :
    mergeEpisodes (mergeEpisodes P F) F = mergeEpisodes P F := by
  rw [mergeEpisodes_eq_map, mergeEpisodes_eq_map P F]
  apply List.map_congr_left
  intro f hf
  cases hF : F.find? (fun ep => ep.id == f.id) with
  | none =>
      exfalso
      rw [List.find?_eq_none] at hF
      exact hF f hf (by simp)
  | some f' =>
      have hid : f'.id = f.id := by
        have := List.find?_some hF
        simpa using this
      have key := find?_map_id_pred (mergeStep P) (mergeStep_id P) F f.id
      rw [hF, Option.map_some'] at key
      rw [mergeStep_of_find?_some key]
      cases hP : P.find? (fun ep => ep.id == f.id) with
      | none =>
          have hP' : P.find? (fun ep => ep.id == f'.id) = none := by
            rw [hid]; exact hP
          rw [mergeStep_of_find?_none hP, mergeStep_of_find?_none hP']
      | some p =>
          have hP' : P.find? (fun ep => ep.id == f'.id) = some p := by
            rw [hid]; exact hP
          rw [mergeStep_of_find?_some hP, mergeStep_of_find?_some hP']

/-- C1.  Watch-state preservation across refresh: for any stored list `P`
(with the data-model invariant that episode identifiers are unique) and
fresh list `F`, every episode of `F` whose identifier occurs in `P` with
`watched = true` appears in the merge watched, with the prior
`watchedDate` carried over and every other field taken from the fresh
value; an episode of `F` whose identifier does not occur in `P` appears
with `watched = false`. -/
theorem mergeEpisodes_preserves_watched (P F : List Episode)
    (hNodup : (P.map (fun p => p.id)).Nodup) :
    (∀ p ∈ P, p.watched = true → ∀ e ∈ F, e.id = p.id →
      ({ e with watched := true, watchedDate := p.watchedDate } : Episode)
        ∈ mergeEpisodes P F)
    ∧ (∀ e ∈ F, (∀ p ∈ P, p.id ≠ e.id) →
      ({ e with watched := false, watchedDate := none } : Episode)
        ∈ mergeEpisodes P F) := by
  constructor
  · intro p hp hw e he hid
    cases hfind : P.find? (fun ep => ep.id == e.id) with
    | none =>
        exfalso
        rw [List.find?_eq_none] at hfind
        exact hfind p hp (by simp [hid])
    | some q =>
        have hq : q ∈ P := List.mem_of_find?_eq_some hfind
        have hqid : q.id = e.id := by
          have := List.find?_some hfind
          simpa using this
        have hqp : q = p :=
          List.inj_on_of_nodup_map hNodup hq hp (by rw [hqid, hid])
        have hstep : mergeStep P e =
            { e with watched := true, watchedDate := p.watchedDate } := by
          rw [mergeStep_of_find?_some hfind, hqp, hw]
        rw [mergeEpisodes_eq_map, ← hstep]
        exact List.mem_map_of_mem (mergeStep P) he
  · intro e he hnot
    have hfind : P.find? (fun ep => ep.id == e.id) = none := by
      rw [List.find?_eq_none]
      intro p hp
      simp [hnot p hp]
    have hstep : mergeStep P e =
        { e with watched := false, watchedDate := none } :=
      mergeStep_of_find?_none hfind
    rw [mergeEpisodes_eq_map, ← hstep]
    exact List.mem_map_of_mem (mergeStep P) he

/-- Witness for C1 at concrete data: a watched prior episode keeps its
watch state through a refresh that changes its other fields, and a
genuinely new episode comes out unwatched. -/
theorem mergeEpisodes_preserves_watched_witness :
    ({ epAFresh with watched := true, watchedDate := some 42 } : Episode)
        ∈ mergeEpisodes [epA] [epAFresh, epBFresh]
    ∧ ({ epBFresh with watched := false, watchedDate := none } : Episode)
        ∈ mergeEpisodes [epA] [epAFresh, epBFresh] := by
  constructor
  · exact (mergeEpisodes_preserves_watched [epA] [epAFresh, epBFresh]
      (by decide)).1 epA (by simp) (by decide) epAFresh (by simp) (by decide)
  · exact (mergeEpisodes_preserves_watched [epA] [epAFresh, epBFresh]
      (by decide)).2 epBFresh (by simp) (by decide)

theorem find?_eq_some_decomp {α : Type} (p : α → Bool) (l : List α) (a : α)
    (h : l.find? p = some a) :
    ∃ l₁ l₂, l = l₁ ++ a :: l₂ ∧ ∀ x ∈ l₁, p x = false := by
  induction l with
  | nil => simp at h
  | cons b t ih =>
      by_cases hpb : p b = true
      · rw [List.find?_cons_of_pos _ hpb] at h
        have hba : b = a := by simpa using h
        subst hba
        exact ⟨[], t, rfl, by simp⟩
      · rw [List.find?_cons_of_neg _ hpb] at h
        obtain ⟨l₁, l₂, hdec, hall⟩ := ih h
        refine ⟨b :: l₁, l₂, by rw [hdec]; rfl, ?_⟩
        intro x hx
        rcases List.mem_cons.mp hx with hxb | hxl
        · subst hxb
          exact Bool.eq_false_iff.mpr hpb
        · exact hall x hxl

/-- Counterexample to C2 as stated: with the unwatched aired episodes
listed out of air-date order, the resolver returns the first episode in
list order (`epLater`, air date 200) even though `epEarlier` (air date
100) also qualifies and is strictly earlier — so the resolved episode is
not the earliest-aired qualifying one. -/
theorem findNextUnwatched_not_earliest :
    findNextUnwatched 300 [epLater, epEarlier] = some epLater
    ∧ resolveNextEpisode 300 [epLater, epEarlier] =
        some (toNextEpisode epLater)
    ∧ (!epEarlier.watched && airedB 300 epEarlier) = true
    ∧ epEarlier.airDate = some 100
    ∧ epLater.airDate = some 200 := by
  refine ⟨by decide, by decide, by decide, by decide, by decide⟩

/-- C2 (amended).  Next-episode resolution: the resolved `nextEpisode` is
the first episode in list order with `watched = false` and air date
`≤ now`; it is `none` exactly when no such episode exists (even if
future unaired episodes exist); and an episode with a missing air date
never qualifies, as if not yet aired.  (The code performs no
earliest-air-date selection and no season/episode tie-breaking.) -/
theorem findNextUnwatched_first_in_list_order (now : Nat)
    (episodes : List Episode) :
    (∀ e, findNextUnwatched now episodes = some e →
      e ∈ episodes ∧ e.watched = false ∧ airedB now e = true ∧
      resolveNextEpisode now episodes = some (toNextEpisode e) ∧
      ∃ l₁ l₂, episodes = l₁ ++ e :: l₂ ∧
        ∀ x ∈ l₁, (!x.watched && airedB now x) = false)
    ∧ (findNextUnwatched now episodes = none ↔
      ∀ e ∈ episodes, e.watched = true ∨ airedB now e = false)
    ∧ (∀ e, e.airDate = none → (!e.watched && airedB now e) = false) := by
  refine ⟨?_, ?_, ?_⟩
  · intro e hfind
    have hfind0 : episodes.find? (fun ep => !ep.watched && airedB now ep) =
        some e := hfind
    have hmem : e ∈ episodes := List.mem_of_find?_eq_some hfind0
    have hqual0 := List.find?_some hfind0
    have hqual : (!e.watched && airedB now e) = true := hqual0
    have hw : e.watched = false := by
      cases hw : e.watched
      · rfl
      · rw [hw] at hqual; simp at hqual
    have ha : airedB now e = true := by
      cases ha : airedB now e
      · rw [ha] at hqual; simp at hqual
      · rfl
    refine ⟨hmem, hw, ha, by simp [resolveNextEpisode, hfind], ?_⟩
    exact find?_eq_some_decomp _ _ _ hfind0
  · unfold findNextUnwatched
    rw [List.find?_eq_none]
    constructor
    · intro h e he
      have := h e he
      rcases hw : e.watched with h0 | h1
      · right
        cases ha : airedB now e
        · rfl
        · exfalso
          apply this
          rw [hw, ha]
          rfl
      · left; rfl
    · intro h e he
      rcases h e he with hw | ha
      · rw [hw]; simp
      · rw [ha]; simp
  · intro e hnone
    rw [airedB, hnone]
    simp

/-- Witness for the amended C2 at the spec's own test data (dates encoded
as instants 101 / 201 / 301, now = 215): the resolver returns the
unwatched episode that aired at 201, which is unwatched, aired, and
preceded only by non-qualifying episodes. -/
theorem findNextUnwatched_first_in_list_order_witness :
    specEp2 ∈ [specEp1, specEp2, specEp3] ∧ specEp2.watched = false ∧
    airedB 215 specEp2 = true ∧
    resolveNextEpisode 215 [specEp1, specEp2, specEp3] =
      some (toNextEpisode specEp2) := by
  have h := (findNextUnwatched_first_in_list_order 215
    [specEp1, specEp2, specEp3]).1 specEp2 (by decide)
  exact ⟨h.1, h.2.1, h.2.2.1, h.2.2.2.1⟩

theorem insertSorted_perm {α : Type} (lt : α → α → Bool) (x : α)
    (l : List α) : (insertSorted lt x l).Perm (x :: l) := by
  induction l with
  | nil => simp [insertSorted]
  | cons y ys ih =>
      by_cases h : lt x y = true
      · simp [insertSorted, h]
      · have heq : insertSorted lt x (y :: ys) =
            y :: insertSorted lt x ys := by
          simp [insertSorted, h]
        rw [heq]
        exact (ih.cons y).trans (List.Perm.swap x y ys)

theorem sortByLt_perm {α : Type} (lt : α → α → Bool) (l : List α) :
    (sortByLt lt l).Perm l := by
  induction l with
  | nil => simp [sortByLt]
  | cons x xs ih =>
      exact (insertSorted_perm lt x (sortByLt lt xs)).trans (ih.cons x)

theorem pairwise_insertSorted {α : Type} (f : α → Nat) (x : α)
    (l : List α) (hl : List.Pairwise (fun a b => f a ≤ f b) l) :
    List.Pairwise (fun a b => f a ≤ f b)
      (insertSorted (fun a b => decide (f a < f b)) x l) := by
  induction l with
  | nil => simp [insertSorted]
  | cons y ys ih =>
      rcases List.pairwise_cons.mp hl with ⟨hy, hys⟩
      by_cases h : f x < f y
      · have heq : insertSorted (fun a b => decide (f a < f b)) x (y :: ys)
            = x :: y :: ys := by simp [insertSorted, h]
        rw [heq]
        refine List.pairwise_cons.mpr ⟨?_, hl⟩
        intro z hz
        rcases List.mem_cons.mp hz with rfl | hz'
        · exact Nat.le_of_lt h
        · exact Nat.le_trans (Nat.le_of_lt h) (hy z hz')
      · have heq : insertSorted (fun a b => decide (f a < f b)) x (y :: ys)
            = y :: insertSorted (fun a b => decide (f a < f b)) x ys := by
          simp [insertSorted, h]
        rw [heq]
        refine List.pairwise_cons.mpr ⟨?_, ih hys⟩
        intro z hz
        have hz' : z = x ∨ z ∈ ys := by
          have := (insertSorted_perm
            (fun a b => decide (f a < f b)) x ys).mem_iff.mp hz
          simpa using this
        rcases hz' with rfl | hz'
        · exact Nat.le_of_not_lt h
        · exact hy z hz'

theorem pairwise_sortByLt {α : Type} (f : α → Nat) (l : List α) :
    List.Pairwise (fun a b => f a ≤ f b)
      (sortByLt (fun a b => decide (f a < f b)) l) := by
  induction l with
  | nil => simp [sortByLt]
  | cons x xs ih => exact pairwise_insertSorted f x _ ih

theorem insertSorted_map_some (x : Nat) (l : List Nat) :
    insertSorted seasonKeyLt (some x) (l.map some) =
      (insertSorted (fun a b => decide (a < b)) x l).map some := by
  induction l with
  | nil => simp [insertSorted]
  | cons y ys ih =>
      by_cases h : x < y
      · simp [insertSorted, seasonKeyLt, h]
      · simp [insertSorted, seasonKeyLt, h, ih]

theorem sortByLt_map_some (l : List Nat) :
    sortByLt seasonKeyLt (l.map some) =
      (sortByLt (fun a b => decide (a < b)) l).map some := by
  induction l with
  | nil => simp [sortByLt]
  | cons x xs ih =>
      show insertSorted seasonKeyLt (some x) (sortByLt seasonKeyLt
        (xs.map some)) = _
      rw [ih]
      exact insertSorted_map_some x _

theorem exists_map_some_of_ne_none {l : List (Option Nat)}
    (h : ∀ o ∈ l, o ≠ none) : ∃ ks : List Nat, l = ks.map some := by
  induction l with
  | nil => exact ⟨[], rfl⟩
  | cons o t ih =>
      obtain ⟨ks, hks⟩ := ih (fun o' ho' => h o' (List.mem_cons_of_mem _ ho'))
      cases o with
      | none => exact absurd rfl (h none (List.mem_cons_self _ _))
      | some a => exact ⟨a :: ks, by rw [hks]; rfl⟩

theorem pairwise_lt_of_le_nodup {l : List Nat}
    (h1 : List.Pairwise (fun a b => a ≤ b) l) (h2 : l.Nodup) :
    List.Pairwise (fun a b => a < b) l :=
  (h1.and h2).imp (fun hab => Nat.lt_of_le_of_ne hab.1 hab.2)

theorem organize_map_number (eps : List Episode) :
    (organizeEpisodesIntoSeasons eps).map (fun s => s.number) =
      sortByLt seasonKeyLt ((eps.map (fun e => e.season)).dedup) := by
  unfold organizeEpisodesIntoSeasons
  rw [List.map_map]
  have hcomp : ((fun s : Season => s.number) ∘ mkSeason eps) =
      fun k => k := by
    funext k; rfl
  rw [hcomp]
  exact List.map_id' _

/-- C8.  Season aggregation output: every produced season carries exactly
the input episodes with its season key, ordered by episode number
ascending, with `totalEpisodes` and `watchedEpisodes` the matching
counts; no two seasons share a number; every input episode lands in the
season of its key — in particular the episodes with a missing season
number are grouped under the reserved `none` bucket rather than dropped;
and when every episode carries a season number the seasons are ordered
by season number strictly ascending. -/
theorem organizeEpisodesIntoSeasons_spec (eps : List Episode) :
    (∀ s ∈ organizeEpisodesIntoSeasons eps,
      s.totalEpisodes = (eps.filter (fun e => e.season == s.number)).length ∧
      s.watchedEpisodes = ((eps.filter (fun e => e.season == s.number)).filter
        (fun e => e.watched)).length ∧
      s.episodes.Perm (eps.filter (fun e => e.season == s.number)) ∧
      List.Pairwise (fun a b => a.episode ≤ b.episode) s.episodes)
    ∧ ((organizeEpisodesIntoSeasons eps).map (fun s => s.number)).Nodup
    ∧ (∀ e ∈ eps, ∃ s ∈ organizeEpisodesIntoSeasons eps,
        s.number = e.season ∧ e ∈ s.episodes)
    ∧ (∀ e ∈ eps, e.season = none → ∃ s ∈ organizeEpisodesIntoSeasons eps,
        s.number = none ∧ e ∈ s.episodes)
    ∧ ((∀ e ∈ eps, e.season ≠ none) →
        List.Pairwise (fun a b => ∃ x y, a = some x ∧ b = some y ∧ x < y)
          ((organizeEpisodesIntoSeasons eps).map (fun s => s.number))) := by
  have hcover : ∀ e ∈ eps, ∃ s ∈ organizeEpisodesIntoSeasons eps,
      s.number = e.season ∧ e ∈ s.episodes := by
    intro e he
    have hkey : e.season ∈
        sortByLt seasonKeyLt ((eps.map (fun e => e.season)).dedup) := by
      apply (sortByLt_perm seasonKeyLt _).mem_iff.mpr
      exact List.mem_dedup.mpr (List.mem_map_of_mem _ he)
    refine ⟨mkSeason eps e.season, List.mem_map_of_mem _ hkey, rfl, ?_⟩
    show e ∈ sortByLt episodeNumberLt
      (eps.filter (fun x => x.season == e.season))
    apply (sortByLt_perm episodeNumberLt _).mem_iff.mpr
    exact List.mem_filter.mpr ⟨he, by simp⟩
  refine ⟨?_, ?_, hcover, ?_, ?_⟩
  · intro s hs
    obtain ⟨k, hk, hks⟩ := List.mem_map.mp hs
    subst hks
    refine ⟨rfl, rfl, ?_, ?_⟩
    · exact sortByLt_perm episodeNumberLt _
    · exact pairwise_sortByLt (fun e : Episode => e.episode) _
  · rw [organize_map_number]
    exact (sortByLt_perm seasonKeyLt _).symm.nodup (List.nodup_dedup _)
  · intro e he hnone
    obtain ⟨s, hs, hnum, hmem⟩ := hcover e he
    exact ⟨s, hs, by rw [hnum, hnone], hmem⟩
  · intro hall
    rw [organize_map_number]
    have hK : ∀ o ∈ (eps.map (fun e => e.season)).dedup, o ≠ none := by
      intro o ho
      obtain ⟨e, he, hes⟩ := List.mem_map.mp (List.mem_dedup.mp ho)
      rw [← hes]
      exact hall e he
    obtain ⟨ks, hks⟩ := exists_map_some_of_ne_none hK
    rw [hks, sortByLt_map_some]
    rw [List.pairwise_map]
    have hle : List.Pairwise (fun a b => a ≤ b)
        (sortByLt (fun a b => decide (a < b)) ks) :=
      pairwise_sortByLt (fun n => n) ks
    have hnd : (sortByLt (fun a b => decide (a < b)) ks).Nodup := by
      apply (sortByLt_perm (fun a b => decide (a < b)) ks).symm.nodup
      have hmapnd : (ks.map some).Nodup := by
        rw [← hks]; exact List.nodup_dedup _
      exact hmapnd.of_map some
    exact (pairwise_lt_of_le_nodup hle hnd).imp
      (fun h => ⟨_, _, rfl, rfl, h⟩)

/-- Witness for C8 at concrete data: a season-2 episode listed first, two
season-1 episodes listed out of order, and an episode with a missing
season.  The missing-season episode lands in the `none` bucket, every
episode lands in the season of its key, and on the all-known sublist the
season numbers come out strictly ascending. -/
theorem organizeEpisodesIntoSeasons_spec_witness :
    (∃ s ∈ organizeEpisodesIntoSeasons [epS2, epS1a, epS1b, epNoSeason],
      s.number = none ∧ epNoSeason ∈ s.episodes)
    ∧ (∃ s ∈ organizeEpisodesIntoSeasons [epS2, epS1a, epS1b, epNoSeason],
      s.number = epS1b.season ∧ epS1b ∈ s.episodes)
    ∧ List.Pairwise (fun a b => ∃ x y, a = some x ∧ b = some y ∧ x < y)
        ((organizeEpisodesIntoSeasons [epS2, epS1a, epS1b]).map
          (fun s => s.number)) := by
  refine ⟨?_, ?_, ?_⟩
  · exact (organizeEpisodesIntoSeasons_spec
      [epS2, epS1a, epS1b, epNoSeason]).2.2.2.1 epNoSeason (by decide) rfl
  · exact (organizeEpisodesIntoSeasons_spec
      [epS2, epS1a, epS1b, epNoSeason]).2.2.1 epS1b (by decide)
  · exact (organizeEpisodesIntoSeasons_spec [epS2, epS1a, epS1b]).2.2.2.2
      (by decide)

theorem toggleEpisodeWatched_none {wl : List Show} {showId : String}
    {episodeId now : Nat}
    (h : wl.find? (fun s => s.id == showId) = none) :
    toggleEpisodeWatched wl showId episodeId now = wl := by
  unfold toggleEpisodeWatched
  rw [h]

theorem toggleEpisodeWatched_some {wl : List Show} {showId : String}
    {episodeId now : Nat} {cs : Show}
    (h : wl.find? (fun s => s.id == showId) = some cs) :
    toggleEpisodeWatched wl showId episodeId now =
      replaceById wl showId
        (recomputeDerived cs (cs.episodes.map (toggleEp episodeId now))
          now) := by
  unfold toggleEpisodeWatched
  rw [h]

theorem markSeasonWatched_none {wl : List Show} {showId : String}
    {sn : Option Nat} {w : Bool} {now : Nat}
    (h : wl.find? (fun s => s.id == showId) = none) :
    markSeasonWatched wl showId sn w now = wl := by
  unfold markSeasonWatched
  rw [h]

theorem markSeasonWatched_some {wl : List Show} {showId : String}
    {sn : Option Nat} {w : Bool} {now : Nat} {cs : Show}
    (h : wl.find? (fun s => s.id == showId) = some cs) :
    markSeasonWatched wl showId sn w now =
      replaceById wl showId
        (recomputeDerived cs (cs.episodes.map (seasonMarkEp sn w now))
          now) := by
  unfold markSeasonWatched
  rw [h]

theorem markSeriesWatched_none {wl : List Show} {showId : String}
    {w : Bool} {now : Nat}
    (h : wl.find? (fun s => s.id == showId) = none) :
    markSeriesWatched wl showId w now = wl := by
  unfold markSeriesWatched
  rw [h]

theorem markSeriesWatched_some {wl : List Show} {showId : String}
    {w : Bool} {now : Nat} {cs : Show}
    (h : wl.find? (fun s => s.id == showId) = some cs) :
    markSeriesWatched wl showId w now =
      replaceById wl showId
        { recomputeDerived cs (cs.episodes.map (bulkMarkEpisode w now)) now
            with watchedDate := if w then some now else none } := by
  unfold markSeriesWatched
  rw [h]

theorem eq_of_mem_replaceById {wl : List Show} {showId : String}
    {upd t : Show} (ht : t ∈ replaceById wl showId upd)
    (hid : t.id = showId) : t = upd := by
  rcases List.mem_map.mp ht with ⟨u, hu, hut⟩
  by_cases h : (u.id == showId) = true
  · rw [if_pos h] at hut
    exact hut.symm
  · rw [if_neg h] at hut
    exact absurd (by rw [hut]; simp [hid]) h

theorem watched_flag_iff (wc len : Nat) :
    ((wc == len) && decide (0 < len)) = true ↔ (0 < len ∧ wc = len) := by
  simp only [Bool.and_eq_true, beq_iff_eq, decide_eq_true_eq]
  exact and_comm

theorem watchedInvariant_recomputeDerived (cs : Show)
    (updatedEpisodes : List Episode) (now : Nat)
    (htot : cs.totalEpisodes = updatedEpisodes.length) :
    WatchedInvariant (recomputeDerived cs updatedEpisodes now) := by
  unfold WatchedInvariant
  have h1 : (recomputeDerived cs updatedEpisodes now).watched =
      ((updatedEpisodes.filter (fun ep => ep.watched)).length ==
        updatedEpisodes.length && decide (0 < updatedEpisodes.length)) := rfl
  have h2 : (recomputeDerived cs updatedEpisodes now).totalEpisodes =
      cs.totalEpisodes := rfl
  have h3 : (recomputeDerived cs updatedEpisodes now).watchedEpisodesCount =
      (updatedEpisodes.filter (fun ep => ep.watched)).length := rfl
  rw [h1, h2, h3, htot]
  exact watched_flag_iff _ _

theorem watchedInvariant_set_watchedDate (u : Show) (d : Option Nat)
    (h : WatchedInvariant u) :
    WatchedInvariant { u with watchedDate := d } := h

/-- C4.  Watched-flag invariant: after a refresh
(`updateShowWithEpisodes`), and for the show targeted by a toggle, a
season mark or a series mark (over a watchlist whose stored
`totalEpisodes` agrees with the episode count, as every reachable state
does), the show satisfies `watched = true` iff it has episodes and all
are watched; and any show satisfying the invariant with zero episodes is
not watched. -/
theorem watched_invariant_after_operations (s : Show)
    (fresh : List Episode) (wl : List Show) (showId : String)
    (episodeId : Nat) (sn : Option Nat) (w : Bool) (now : Nat)
    (hwl : ∀ t ∈ wl, t.totalEpisodes = t.episodes.length) :
    WatchedInvariant (updateShowWithEpisodes s fresh now)
    ∧ (∀ t ∈ toggleEpisodeWatched wl showId episodeId now,
        t.id = showId → WatchedInvariant t)
    ∧ (∀ t ∈ markSeasonWatched wl showId sn w now,
        t.id = showId → WatchedInvariant t)
    ∧ (∀ t ∈ markSeriesWatched wl showId w now,
        t.id = showId → WatchedInvariant t)
    ∧ (∀ t : Show, WatchedInvariant t → t.totalEpisodes = 0 →
        t.watched = false) := by
  refine ⟨?_, ?_, ?_, ?_, ?_⟩
  · exact watched_flag_iff _ _
  · intro t ht hid
    cases hfind : wl.find? (fun u => u.id == showId) with
    | none =>
        rw [toggleEpisodeWatched_none hfind] at ht
        rw [List.find?_eq_none] at hfind
        exact absurd (by simp [hid]) (hfind t ht)
    | some cs =>
        rw [toggleEpisodeWatched_some hfind] at ht
        rw [eq_of_mem_replaceById ht hid]
        apply watchedInvariant_recomputeDerived
        rw [List.length_map]
        exact hwl cs (List.mem_of_find?_eq_some hfind)
  · intro t ht hid
    cases hfind : wl.find? (fun u => u.id == showId) with
    | none =>
        rw [markSeasonWatched_none hfind] at ht
        rw [List.find?_eq_none] at hfind
        exact absurd (by simp [hid]) (hfind t ht)
    | some cs =>
        rw [markSeasonWatched_some hfind] at ht
        rw [eq_of_mem_replaceById ht hid]
        apply watchedInvariant_recomputeDerived
        rw [List.length_map]
        exact hwl cs (List.mem_of_find?_eq_some hfind)
  · intro t ht hid
    cases hfind : wl.find? (fun u => u.id == showId) with
    | none =>
        rw [markSeriesWatched_none hfind] at ht
        rw [List.find?_eq_none] at hfind
        exact absurd (by simp [hid]) (hfind t ht)
    | some cs =>
        rw [markSeriesWatched_some hfind] at ht
        rw [eq_of_mem_replaceById ht hid]
        apply watchedInvariant_set_watchedDate
        apply watchedInvariant_recomputeDerived
        rw [List.length_map]
        exact hwl cs (List.mem_of_find?_eq_some hfind)
  · intro t hinv htot
    cases hw : t.watched
    · rfl
    · have := hinv.mp hw
      rw [htot] at this
      exact absurd this.1 (by simp)

/-- Witness for C4: the refresh of `show1` with the fresh list
`[epAFresh]` satisfies the watched-flag invariant, instantiated over the
one-show watchlist whose stored counts are consistent. -/
theorem watched_invariant_after_operations_witness :
    WatchedInvariant (updateShowWithEpisodes show1 [epAFresh] 100) :=
  (watched_invariant_after_operations show1 [epAFresh] [show1]
    "tvmaze-1" 10 (some 1) true 100 (by decide)).1

/-- C5.  Aired-only bulk marking: for the show targeted by a season mark
the episode list becomes the pointwise `seasonMarkEp` image (and the
`bulkMarkEpisode` image for a series mark); `seasonMarkEp` applies the
bulk mark exactly to episodes of that season and leaves the others
untouched; marking watched sets `watched` to true only when the episode
has aired, so an unaired episode ends unwatched; and unmarking clears
`watched` unconditionally. -/
theorem aired_only_bulk_marking (wl : List Show) (showId : String)
    (sn : Option Nat) (w : Bool) (now : Nat) (cs : Show)
    (hfind : wl.find? (fun s => s.id == showId) = some cs) :
    (∀ t ∈ markSeasonWatched wl showId sn w now, t.id = showId →
      t.episodes = cs.episodes.map (seasonMarkEp sn w now))
    ∧ (∀ t ∈ markSeriesWatched wl showId w now, t.id = showId →
      t.episodes = cs.episodes.map (bulkMarkEpisode w now))
    ∧ (∀ e : Episode, e.season = sn →
      seasonMarkEp sn w now e = bulkMarkEpisode w now e)
    ∧ (∀ e : Episode, e.season ≠ sn → seasonMarkEp sn w now e = e)
    ∧ (∀ e : Episode, (bulkMarkEpisode true now e).watched = airedB now e
        ∧ (bulkMarkEpisode true now e).watchedDate =
          (if airedB now e then some now else none))
    ∧ (∀ e : Episode, (bulkMarkEpisode false now e).watched = false
        ∧ (bulkMarkEpisode false now e).watchedDate = none) := by
  refine ⟨?_, ?_, ?_, ?_, ?_, ?_⟩
  · intro t ht hid
    rw [markSeasonWatched_some hfind] at ht
    rw [eq_of_mem_replaceById ht hid]
    rfl
  · intro t ht hid
    rw [markSeriesWatched_some hfind] at ht
    rw [eq_of_mem_replaceById ht hid]
    rfl
  · intro e he
    unfold seasonMarkEp
    rw [if_pos (by simp [he])]
  · intro e he
    unfold seasonMarkEp
    rw [if_neg (by simp [he])]
  · intro e
    constructor <;> rfl
  · intro e
    constructor <;> rfl

/-- Witness for C5 on a season containing one aired and one unaired
episode: after marking the season watched, the aired episode is watched
and the unaired one is not; unmarking clears the aired episode. -/
theorem aired_only_bulk_marking_witness :
    seasonMarkEp (some 1) true 100 epAired = bulkMarkEpisode true 100 epAired
    ∧ (bulkMarkEpisode true 100 epAired).watched = true
    ∧ (bulkMarkEpisode true 100 epUnaired).watched = false
    ∧ (bulkMarkEpisode false 100 epAired).watched = false := by
  have h := aired_only_bulk_marking [show2] "tvmaze-2" (some 1) true 100
    show2 (by decide)
  refine ⟨h.2.2.1 epAired rfl, ?_, ?_, (h.2.2.2.2.2 epAired).1⟩
  · exact ((h.2.2.2.2.1 epAired).1).trans (by decide)
  · exact ((h.2.2.2.2.1 epUnaired).1).trans (by decide)

theorem replaceById_length (wl : List Show) (showId : String)
    (upd : Show) : (replaceById wl showId upd).length = wl.length :=
  List.length_map wl _

theorem replaceById_getElem?_of_ne {wl : List Show} {showId : String}
    {upd : Show} (i : Nat) (h1 : i < wl.length)
    (hne : (wl.get ⟨i, h1⟩).id ≠ showId) :
    (replaceById wl showId upd)[i]? = some (wl.get ⟨i, h1⟩) := by
  rw [List.get_eq_getElem] at hne
  unfold replaceById
  rw [List.getElem?_map, List.getElem?_eq_getElem h1, Option.map_some']
  rw [List.get_eq_getElem]
  rw [if_neg (by simp [hne])]

theorem getElem?_of_get {wl : List Show} (i : Nat) (h1 : i < wl.length) :
    wl[i]? = some (wl.get ⟨i, h1⟩) := by
  rw [List.getElem?_eq_getElem h1, List.get_eq_getElem]

theorem find?_id_eq_none_of_all_ne {wl : List Show} {showId : String}
    (h : ∀ s ∈ wl, s.id ≠ showId) :
    wl.find? (fun s => s.id == showId) = none := by
  rw [List.find?_eq_none]
  intro s hs
  simp [h s hs]

/-- C9.  Frame property of targeted mutations: each of
`toggleEpisodeWatched`, `markSeasonWatched` and `markSeriesWatched`
preserves the watchlist length, leaves every position whose show has a
different identifier completely unchanged, and when no tracked show has
the given identifier returns the watchlist unchanged. -/
theorem frame_targeted_mutations (wl : List Show) (showId : String)
    (episodeId : Nat) (sn : Option Nat) (w : Bool) (now : Nat) :
    ((toggleEpisodeWatched wl showId episodeId now).length = wl.length
      ∧ ∀ i (h1 : i < wl.length), (wl.get ⟨i, h1⟩).id ≠ showId →
          (toggleEpisodeWatched wl showId episodeId now)[i]? =
            some (wl.get ⟨i, h1⟩))
    ∧ ((markSeasonWatched wl showId sn w now).length = wl.length
      ∧ ∀ i (h1 : i < wl.length), (wl.get ⟨i, h1⟩).id ≠ showId →
          (markSeasonWatched wl showId sn w now)[i]? =
            some (wl.get ⟨i, h1⟩))
    ∧ ((markSeriesWatched wl showId w now).length = wl.length
      ∧ ∀ i (h1 : i < wl.length), (wl.get ⟨i, h1⟩).id ≠ showId →
          (markSeriesWatched wl showId w now)[i]? =
            some (wl.get ⟨i, h1⟩))
    ∧ ((∀ s ∈ wl, s.id ≠ showId) →
        toggleEpisodeWatched wl showId episodeId now = wl
        ∧ markSeasonWatched wl showId sn w now = wl
        ∧ markSeriesWatched wl showId w now = wl) := by
  refine ⟨⟨?_, ?_⟩, ⟨?_, ?_⟩, ⟨?_, ?_⟩, ?_⟩
  · cases hfind : wl.find? (fun s => s.id == showId) with
    | none => rw [toggleEpisodeWatched_none hfind]
    | some cs => rw [toggleEpisodeWatched_some hfind, replaceById_length]
  · intro i h1 hne
    cases hfind : wl.find? (fun s => s.id == showId) with
    | none =>
        rw [toggleEpisodeWatched_none hfind]
        exact getElem?_of_get i h1
    | some cs =>
        rw [toggleEpisodeWatched_some hfind]
        exact replaceById_getElem?_of_ne i h1 hne
  · cases hfind : wl.find? (fun s => s.id == showId) with
    | none => rw [markSeasonWatched_none hfind]
    | some cs => rw [markSeasonWatched_some hfind, replaceById_length]
  · intro i h1 hne
    cases hfind : wl.find? (fun s => s.id == showId) with
    | none =>
        rw [markSeasonWatched_none hfind]
        exact getElem?_of_get i h1
    | some cs =>
        rw [markSeasonWatched_some hfind]
        exact replaceById_getElem?_of_ne i h1 hne
  · cases hfind : wl.find? (fun s => s.id == showId) with
    | none => rw [markSeriesWatched_none hfind]
    | some cs => rw [markSeriesWatched_some hfind, replaceById_length]
  · intro i h1 hne
    cases hfind : wl.find? (fun s => s.id == showId) with
    | none =>
        rw [markSeriesWatched_none hfind]
        exact getElem?_of_get i h1
    | some cs =>
        rw [markSeriesWatched_some hfind]
        exact replaceById_getElem?_of_ne i h1 hne
  · intro hall
    have hfind := find?_id_eq_none_of_all_ne hall
    exact ⟨toggleEpisodeWatched_none hfind, markSeasonWatched_none hfind,
      markSeriesWatched_none hfind⟩

/-- Witness for C9: mutating an identifier tracked by no show leaves the
one-show watchlist unchanged for all three operations. -/
theorem frame_targeted_mutations_witness :
    toggleEpisodeWatched [show1] "absent-id" 10 100 = [show1]
    ∧ markSeasonWatched [show1] "absent-id" (some 1) true 100 = [show1]
    ∧ markSeriesWatched [show1] "absent-id" true 100 = [show1] :=
  (frame_targeted_mutations [show1] "absent-id" 10 (some 1) true 100).2.2.2
    (by decide)

theorem isOk_ok {e a : Type} (x : a) :
    (Except.ok x : Except e a).isOk = true := rfl

theorem isOk_error {e a : Type} (x : e) :
    (Except.error x : Except e a).isOk = false := rfl

theorem updateShowsDaily_cons_ok
    {fetchEpisodes : Show → Except String (List Episode)} {now : Nat}
    {s : Show} {rest : List Show} {s' : Show}
    (h : refreshShow fetchEpisodes now s = Except.ok s') :
    updateShowsDaily fetchEpisodes now (s :: rest) =
      (s' :: (updateShowsDaily fetchEpisodes now rest).1,
       (updateShowsDaily fetchEpisodes now rest).2.1 + 1,
       (updateShowsDaily fetchEpisodes now rest).2.2) := by
  conv_lhs => rw [updateShowsDaily]
  rw [h]

theorem updateShowsDaily_cons_error
    {fetchEpisodes : Show → Except String (List Episode)} {now : Nat}
    {s : Show} {rest : List Show} {err : String}
    (h : refreshShow fetchEpisodes now s = Except.error err) :
    updateShowsDaily fetchEpisodes now (s :: rest) =
      (s :: (updateShowsDaily fetchEpisodes now rest).1,
       (updateShowsDaily fetchEpisodes now rest).2.1,
       (updateShowsDaily fetchEpisodes now rest).2.2 + 1) := by
  conv_lhs => rw [updateShowsDaily]
  rw [h]

/-- Orchestrator-structure lemma, over an arbitrary fallible per-show
refresh: the orchestrator is a total function returning the pair of
counts; the updated and error counts are exactly the numbers of
succeeding and failing per-show refreshes and sum to the number of
stale shows; a show whose refresh throws keeps its previous state while
every succeeding show holds the refreshed state.  In the composed
program the per-show refresh never throws (see `actualFetch`), so only
the success branch describes program behavior. -/
theorem updateShowsDaily_spec
    (fetchEpisodes : Show → Except String (List Episode)) (now : Nat)
    (wl : List Show) :
    (updateShowsDaily fetchEpisodes now wl).1.length = wl.length
    ∧ (updateShowsDaily fetchEpisodes now wl).2.1 =
        wl.countP (fun s => (refreshShow fetchEpisodes now s).isOk)
    ∧ (updateShowsDaily fetchEpisodes now wl).2.2 =
        wl.countP (fun s => !(refreshShow fetchEpisodes now s).isOk)
    ∧ (updateShowsDaily fetchEpisodes now wl).2.1 +
        (updateShowsDaily fetchEpisodes now wl).2.2 = wl.length
    ∧ ∀ i (h1 : i < wl.length),
        (∀ s', refreshShow fetchEpisodes now (wl.get ⟨i, h1⟩) =
            Except.ok s' →
          (updateShowsDaily fetchEpisodes now wl).1[i]? = some s')
        ∧ (∀ err, refreshShow fetchEpisodes now (wl.get ⟨i, h1⟩) =
            Except.error err →
          (updateShowsDaily fetchEpisodes now wl).1[i]? =
            some (wl.get ⟨i, h1⟩)) := by
  induction wl with
  | nil =>
      refine ⟨rfl, rfl, rfl, rfl, ?_⟩
      intro i h1
      exact absurd h1 (by simp)
  | cons s rest ih =>
      obtain ⟨ihlen, ihu, ihe, ihsum, ihget⟩ := ih
      cases hr : refreshShow fetchEpisodes now s with
      | ok s' =>
          rw [updateShowsDaily_cons_ok hr]
          refine ⟨by simp [ihlen], ?_, ?_, ?_, ?_⟩
          · rw [List.countP_cons]
            simp only [hr, isOk_ok, if_pos]
            rw [ihu]
          · rw [List.countP_cons]
            simp only [hr, isOk_ok, Bool.not_true]
            rw [if_neg (by simp), ihe, Nat.add_zero]
          · simp only [List.length_cons]
            omega
          · intro i h1
            cases i with
            | zero =>
                refine ⟨?_, ?_⟩
                · intro t ht
                  rw [show (s :: rest).get ⟨0, h1⟩ = s from rfl, hr] at ht
                  rw [List.getElem?_cons_zero]
                  exact congrArg some (Except.ok.inj ht)
                · intro err herr
                  rw [show (s :: rest).get ⟨0, h1⟩ = s from rfl, hr] at herr
                  exact absurd herr (by simp)
            | succ j =>
                have hj : j < rest.length := by simpa using h1
                refine ⟨?_, ?_⟩
                · intro t ht
                  rw [List.getElem?_cons_succ]
                  exact (ihget j hj).1 t ht
                · intro err herr
                  rw [List.getElem?_cons_succ]
                  exact (ihget j hj).2 err herr
      | error err =>
          rw [updateShowsDaily_cons_error hr]
          refine ⟨by simp [ihlen], ?_, ?_, ?_, ?_⟩
          · rw [List.countP_cons]
            simp only [hr, isOk_error]
            rw [if_neg (by simp), ihu, Nat.add_zero]
          · rw [List.countP_cons]
            simp only [hr, isOk_error, Bool.not_false]
            rw [ihe]
            simp
          · simp only [List.length_cons]
            omega
          · intro i h1
            cases i with
            | zero =>
                refine ⟨?_, ?_⟩
                · intro t ht
                  rw [show (s :: rest).get ⟨0, h1⟩ = s from rfl, hr] at ht
                  exact absurd ht (by simp)
                · intro e he
                  rw [show (s :: rest).get ⟨0, h1⟩ = s from rfl]
                  rw [List.getElem?_cons_zero]
            | succ j =>
                have hj : j < rest.length := by simpa using h1
                refine ⟨?_, ?_⟩
                · intro t ht
                  rw [List.getElem?_cons_succ]
                  exact (ihget j hj).1 t ht
                · intro e he
                  rw [List.getElem?_cons_succ]
                  exact (ihget j hj).2 e he

/-- Counterexample to C7 as stated: the episode fetch does not fail with
a distinguishable error — a network failure and a non-2xx HTTP response
both return the empty list, the very value returned for a show with
genuinely zero published episodes, so the caller cannot tell the
outcomes apart (the frontend `fetchEpisodeList` behaves the same). -/
theorem fetchEpisodes_failure_indistinguishable :
    fetchEpisodesFromTvmaze none = fetchEpisodesFromTvmaze (some (200, []))
    ∧ fetchEpisodesFromTvmaze (some (500, [rawEp])) =
        fetchEpisodesFromTvmaze (some (200, []))
    ∧ fetchEpisodesFromTvmaze none = []
    ∧ fetchEpisodeList none = fetchEpisodeList (some []) := by
  refine ⟨rfl, rfl, rfl, rfl⟩

/-- C7 (amended).  Episode-source failure handling: on network failure or
a non-2xx HTTP status the backend adapter catches the error and returns
the empty list — the same value it returns for a show with zero
published episodes — so the two outcomes are NOT distinguishable by the
caller; on success it returns the transformed episode list.  The
frontend `fetchEpisodeList` likewise converts any failure into the empty
list. -/
theorem fetchEpisodes_failure_returns_empty
    (response : Option (Nat × List TvmazeEpisode))
    (status : Nat) (body : List TvmazeEpisode) :
    (tvmazeRespFailed response = true →
      fetchEpisodesFromTvmaze response = []
      ∧ fetchEpisodesFromTvmaze response =
          fetchEpisodesFromTvmaze (some (200, [])))
    ∧ (tvmazeRespFailed (some (status, body)) = false →
      fetchEpisodesFromTvmaze (some (status, body)) =
        body.map transformTvmazeEpisode)
    ∧ fetchEpisodeList none = []
    ∧ fetchEpisodeList none = fetchEpisodeList (some []) := by
  refine ⟨?_, ?_, rfl, rfl⟩
  · intro hfail
    cases response with
    | none => exact ⟨rfl, rfl⟩
    | some p =>
        obtain ⟨st, b⟩ := p
        have h0 : (Bool.not (decide (200 ≤ st) && decide (st < 300))) =
            true := hfail
        cases hcb : (decide (200 ≤ st) && decide (st < 300)) with
        | true =>
            rw [hcb] at h0
            exact absurd h0 (by decide)
        | false =>
            constructor
            · show (if decide (200 ≤ st) && decide (st < 300) then
                  b.map transformTvmazeEpisode else []) = []
              simp [hcb]
            · show (if decide (200 ≤ st) && decide (st < 300) then
                  b.map transformTvmazeEpisode else []) = []
              simp [hcb]
  · intro hok
    have h0 : (Bool.not (decide (200 ≤ status) && decide (status < 300))) =
        false := hok
    cases hcb : (decide (200 ≤ status) && decide (status < 300)) with
    | false =>
        rw [hcb] at h0
        exact absurd h0 (by decide)
    | true =>
        show (if decide (200 ≤ status) && decide (status < 300) then
            body.map transformTvmazeEpisode else []) =
          body.map transformTvmazeEpisode
        simp [hcb]

/-- Witness for the amended C7: a rejected fetch and a 500 response both
come back as the empty list, indistinguishable from a 200 response with
an empty body; a 200 response with one raw episode is transformed. -/
theorem fetchEpisodes_failure_returns_empty_witness :
    fetchEpisodesFromTvmaze (some (500, [rawEp])) = []
    ∧ fetchEpisodesFromTvmaze (some (200, [rawEp])) =
        [transformTvmazeEpisode rawEp] := by
  constructor
  · exact ((fetchEpisodes_failure_returns_empty (some (500, [rawEp]))
      200 []).1 (by decide)).1
  · exact (fetchEpisodes_failure_returns_empty (some (500, [rawEp]))
      200 [rawEp]).2.1 (by decide)

theorem map_id_replaceById {wl : List Show} {sid : String} {upd : Show}
    (h : upd.id = sid) :
    (replaceById wl sid upd).map (fun s => s.id) =
      wl.map (fun s => s.id) := by
  unfold replaceById
  rw [List.map_map]
  apply List.map_congr_left
  intro u hu
  show (if (u.id == sid) then upd else u).id = u.id
  by_cases hc : (u.id == sid) = true
  · rw [if_pos hc, h]
    exact (beq_iff_eq.mp hc).symm
  · rw [if_neg hc]

theorem map_id_toggleEpisodeWatched (wl : List Show) (showId : String)
    (episodeId now : Nat) :
    (toggleEpisodeWatched wl showId episodeId now).map (fun s => s.id) =
      wl.map (fun s => s.id) := by
  cases hfind : wl.find? (fun s => s.id == showId) with
  | none => rw [toggleEpisodeWatched_none hfind]
  | some cs =>
      rw [toggleEpisodeWatched_some hfind]
      apply map_id_replaceById
      have h0 := List.find?_some hfind
      have h2 : (cs.id == showId) = true := h0
      exact beq_iff_eq.mp h2

theorem map_id_markSeasonWatched (wl : List Show) (showId : String)
    (sn : Option Nat) (w : Bool) (now : Nat) :
    (markSeasonWatched wl showId sn w now).map (fun s => s.id) =
      wl.map (fun s => s.id) := by
  cases hfind : wl.find? (fun s => s.id == showId) with
  | none => rw [markSeasonWatched_none hfind]
  | some cs =>
      rw [markSeasonWatched_some hfind]
      apply map_id_replaceById
      have h0 := List.find?_some hfind
      have h2 : (cs.id == showId) = true := h0
      exact beq_iff_eq.mp h2

theorem map_id_markSeriesWatched (wl : List Show) (showId : String)
    (w : Bool) (now : Nat) :
    (markSeriesWatched wl showId w now).map (fun s => s.id) =
      wl.map (fun s => s.id) := by
  cases hfind : wl.find? (fun s => s.id == showId) with
  | none => rw [markSeriesWatched_none hfind]
  | some cs =>
      rw [markSeriesWatched_some hfind]
      apply map_id_replaceById
      have h0 := List.find?_some hfind
      have h2 : (cs.id == showId) = true := h0
      exact beq_iff_eq.mp h2

theorem map_id_updateShowsDaily
    (fetchEpisodes : Show → Except String (List Episode)) (now : Nat)
    (wl : List Show) :
    (updateShowsDaily fetchEpisodes now wl).1.map (fun s => s.id) =
      wl.map (fun s => s.id) := by
  induction wl with
  | nil => rfl
  | cons s rest ih =>
      cases hr : refreshShow fetchEpisodes now s with
      | ok s' =>
          rw [updateShowsDaily_cons_ok hr]
          simp only [List.map_cons]
          rw [ih]
          have hid : s'.id = s.id := by
            cases hf : fetchEpisodes s with
            | error e =>
                have : refreshShow fetchEpisodes now s =
                    Except.error e := by
                  unfold refreshShow
                  rw [hf]
                  rfl
                rw [this] at hr
                exact absurd hr (by simp)
            | ok fresh =>
                have : refreshShow fetchEpisodes now s =
                    Except.ok (updateShowWithEpisodes s fresh now) := by
                  unfold refreshShow
                  rw [hf]
                  rfl
                rw [this] at hr
                rw [← Except.ok.inj hr]
                rfl
          rw [hid]
      | error err =>
          rw [updateShowsDaily_cons_error hr]
          simp only [List.map_cons]
          rw [ih]

theorem nodup_ids_addToWatchlist {wl : List Show} (item : Show) (now : Nat)
    (h : (wl.map (fun s => s.id)).Nodup) :
    ((addToWatchlist wl item now).map (fun s => s.id)).Nodup := by
  unfold addToWatchlist
  by_cases hs : (wl.find? (fun w => w.id == item.id)).isSome = true
  · rw [if_pos hs]
    exact h
  · rw [if_neg hs, List.map_append]
    apply List.Nodup.append h (by simp)
    intro a ha hb
    have hai : a = item.id := by simpa using hb
    subst hai
    obtain ⟨u, hu, hui⟩ := List.mem_map.mp ha
    apply hs
    rw [List.find?_isSome]
    exact ⟨u, hu, by simp [hui]⟩

theorem nodup_ids_removeFromWatchlist {wl : List Show} (itemId : String)
    (h : (wl.map (fun s => s.id)).Nodup) :
    ((removeFromWatchlist wl itemId).map (fun s => s.id)).Nodup :=
  (List.Sublist.map (fun s => s.id) (List.filter_sublist wl)).nodup h

theorem addToWatchlist_id_mem {wl : List Show} {item : Show} (now : Nat)
    (h : ∃ s ∈ wl, s.id = item.id) :
    addToWatchlist wl item now = wl := by
  have hsome : (wl.find? (fun w => w.id == item.id)).isSome = true := by
    rw [List.find?_isSome]
    obtain ⟨s, hs, hid⟩ := h
    exact ⟨s, hs, by simp [hid]⟩
  unfold addToWatchlist
  rw [if_pos hsome]

/-- C10.  Identifier uniqueness of the tracked list: every watchlist
state reachable through the public operations (from the empty list) has
pairwise-distinct show identifiers, and `addToWatchlist` called with an
item whose identifier already belongs to a tracked show returns the
watchlist unchanged. -/
theorem reachable_watchlists_unique_ids :
    (∀ wl, Reachable wl → (wl.map (fun s => s.id)).Nodup)
    ∧ ∀ (wl : List Show) (item : Show) (now : Nat),
        (∃ s ∈ wl, s.id = item.id) → addToWatchlist wl item now = wl := by
  constructor
  · intro wl h
    induction h with
    | nil => simp
    | add wl item now _ ih => exact nodup_ids_addToWatchlist item now ih
    | remove wl itemId _ ih => exact nodup_ids_removeFromWatchlist itemId ih
    | toggle wl showId episodeId now _ ih =>
        rw [map_id_toggleEpisodeWatched]
        exact ih
    | season wl showId sn w now _ ih =>
        rw [map_id_markSeasonWatched]
        exact ih
    | series wl showId w now _ ih =>
        rw [map_id_markSeriesWatched]
        exact ih
    | daily wl fetchEpisodes now _ ih =>
        rw [map_id_updateShowsDaily]
        exact ih
    | bgUpdate wl sid s' hs _ ih =>
        rw [map_id_replaceById hs]
        exact ih
  · intro wl item now h
    exact addToWatchlist_id_mem now h

/-- Witness for C10: the watchlist reached by one add from the empty
state has distinct identifiers, and re-adding a show whose identifier is
already tracked changes nothing. -/
theorem reachable_watchlists_unique_ids_witness :
    ((addToWatchlist [] show1 0).map (fun s => s.id)).Nodup
    ∧ addToWatchlist [show1] show1 5 = [show1] :=
  ⟨reachable_watchlists_unique_ids.1 _
      (Reachable.add [] show1 0 Reachable.nil),
   reachable_watchlists_unique_ids.2 [show1] show1 5 ⟨show1, by simp, rfl⟩⟩

/-- Counterexample to C6 as stated: in the composed program the episode
adapters catch every failure and return the empty list, so a fetch
failure never reaches the orchestrator's error branch.  At the claim's
own scenario — 5 stale shows where show #3's fetch fails — the result
is 5 updated / 0 errors, not 4 / 1; and show #3 does not keep its
previous state: its stored (watched) episode list is wiped to empty by
the merge with the empty "fresh" list. -/
theorem updateShowsDaily_fetch_failure_not_isolated :
    (updateShowsDailyActual batchResp 100 batchWl).2.1 = 5
    ∧ (updateShowsDailyActual batchResp 100 batchWl).2.2 = 0
    ∧ (batchShow 3).episodes = [epA]
    ∧ (updateShowsDailyActual batchResp 100 batchWl).1[2]? =
        some (updateShowWithEpisodes (batchShow 3) [] 100)
    ∧ (updateShowWithEpisodes (batchShow 3) [] 100).episodes = [] := by
  refine ⟨by decide, by decide, rfl, by decide, rfl⟩

/-- C6 (amended).  Batch-refresh behavior of the composed program: the
orchestrator is a total function — a single show's fetch failure aborts
neither its batch nor the run — and it returns the pair (updated count,
error count) rather than throwing; but because the adapters convert
every fetch failure into an empty episode list, no failure reaches the
orchestrator's error branch: every stale show is counted as updated and
the error count is always zero.  Each show's new state is the recompute
against whatever the adapter returned — fresh data on success, and for
a show whose fetch failed the recompute against the empty list, which
wipes its episode data instead of keeping its previous state. -/
theorem updateShowsDailyActual_spec
    (resp : Show → Option (List TvmazeEpisode)) (now : Nat)
    (wl : List Show) :
    (updateShowsDailyActual resp now wl).1.length = wl.length
    ∧ (updateShowsDailyActual resp now wl).2.1 = wl.length
    ∧ (updateShowsDailyActual resp now wl).2.2 = 0
    ∧ (∀ i (h1 : i < wl.length),
        (updateShowsDailyActual resp now wl).1[i]? =
          some (updateShowWithEpisodes (wl.get ⟨i, h1⟩)
            (fetchEpisodeList (resp (wl.get ⟨i, h1⟩))) now))
    ∧ (∀ s : Show, resp s = none →
        (updateShowWithEpisodes s (fetchEpisodeList (resp s)) now).episodes
          = []) := by
  obtain ⟨hlen, hu, he, _, hget⟩ :=
    updateShowsDaily_spec (actualFetch resp) now wl
  have hok : ∀ s : Show, refreshShow (actualFetch resp) now s =
      Except.ok (updateShowWithEpisodes s
        (fetchEpisodeList (resp s)) now) := fun s => rfl
  unfold updateShowsDailyActual
  refine ⟨hlen, ?_, ?_, ?_, ?_⟩
  · rw [hu]
    apply List.countP_eq_length.mpr
    intro a _
    show (refreshShow (actualFetch resp) now a).isOk = true
    rw [hok a]
    rfl
  · rw [he]
    apply List.countP_eq_zero.mpr
    intro a _
    show ¬(!(refreshShow (actualFetch resp) now a).isOk) = true
    rw [hok a]
    simp [isOk_ok]
  · intro i h1
    exact (hget i h1).1 _ (hok _)
  · intro s h
    rw [h]
    rfl

/-- Witness for the amended C6 at the 5-show scenario: all five shows
counted updated with zero errors, show #1 holds the freshly recomputed
state, and failing show #3 is recomputed against the empty list. -/
theorem updateShowsDailyActual_spec_witness :
    (updateShowsDailyActual batchResp 100 batchWl).2.1 = 5
    ∧ (updateShowsDailyActual batchResp 100 batchWl).2.2 = 0
    ∧ (updateShowsDailyActual batchResp 100 batchWl).1[0]? =
        some (updateShowWithEpisodes (batchShow 1)
          [transformTvmazeEpisode rawEp] 100)
    ∧ (updateShowWithEpisodes (batchShow 3)
        (fetchEpisodeList (batchResp (batchShow 3))) 100).episodes
      = [] := by
  have h := updateShowsDailyActual_spec batchResp 100 batchWl
  refine ⟨?_, h.2.2.1, ?_, h.2.2.2.2 (batchShow 3) rfl⟩
  · rw [h.2.1]
    rfl
  · exact h.2.2.2.1 0 (by decide)
